import Mathlib

/-!
Verification of the rust-minetestworld storage-access layer.

The addressing layer (src/positions.rs, src/lib.rs) is embedded with
mathematical integers; Rust's fixed-width machine arithmetic is made
explicit through the wrapping helpers `toInt16` and `toInt64`.
The write-back edit cache (src/voxel_manip.rs) is embedded as explicit
state passing over a cache association list; the `MapBlock` codec
(map_block.rs, not part of the available sources) is modelled from the
specification.
-/

/-- Wrap an integer to the 16-bit twos-complement range, as Rust's `as i16`
cast and wrapping `i16` arithmetic do. -/
def toInt16 (n : Int) : Int := (n + 32768) % 65536 - 32768

/-- Wrap an integer to the 64-bit twos-complement range, as Rust's wrapping
`i64` arithmetic does. -/
def toInt64 (n : Int) : Int :=
  (n + 9223372036854775808) % 18446744073709551616 - 9223372036854775808

/-- Predicate: `n` is representable as an `i16`. -/
def isI16 (n : Int) : Prop := -32768 ≤ n ∧ n < 32768

instance (n : Int) : Decidable (isI16 n) := by
  unfold isI16; infer_instance

/-! Constants from src/lib.rs. -/

/-- Rust `NODE_BITS_1D = 4`: bits addressing nodes within a block per axis. -/
def NODE_BITS_1D : Nat := 4

/-- Rust `NODE_MASK = (1 << NODE_BITS_1D) - 1 = 15`. -/
def NODE_MASK : Nat := 15

/-- Rust `BLOCK_BITS_1D = 16 - 4 = 12`: bits addressing blocks per axis. -/
def BLOCK_BITS_1D : Nat := 12

/-- Rust `BLOCK_NODES_1D = 1 << NODE_BITS_1D = 16`: block side length. -/
def BLOCK_NODES_1D : Nat := 16

/-- Rust `BLOCK_NODES_3D = 1 << 12 = 4096`: nodes per block. -/
def BLOCK_NODES_3D : Nat := 4096

/-- Rust `WORLD_BLOCKS_1D = 1 << BLOCK_BITS_1D = 4096`: block indices per axis. -/
def WORLD_BLOCKS_1D : Int := 4096

/-- Rust `WORLD_BLOCKS_MIN = -1 << (BLOCK_BITS_1D - 1) = -2048`. -/
def WORLD_BLOCKS_MIN : Int := -2048

/-- Rust `WORLD_BLOCKS_MAX = (1 << (BLOCK_BITS_1D - 1)) - 1 = 2047`. -/
def WORLD_BLOCKS_MAX : Int := 2047

/-- Rust `DIAGONAL_KEY_STRIDE = 1 + WORLD_BLOCKS_1D + WORLD_BLOCKS_1D²`. -/
def DIAGONAL_KEY_STRIDE : Int := 1 + 4096 + 4096 * 4096

/-- Rust `BLOCK_KEY_MIN = WORLD_BLOCKS_MIN * DIAGONAL_KEY_STRIDE`. -/
def BLOCK_KEY_MIN : Int := WORLD_BLOCKS_MIN * DIAGONAL_KEY_STRIDE

/-- Rust `BLOCK_KEY_MAX = WORLD_BLOCKS_MAX * DIAGONAL_KEY_STRIDE`. -/
def BLOCK_KEY_MAX : Int := WORLD_BLOCKS_MAX * DIAGONAL_KEY_STRIDE

/-! The position types from src/positions.rs. -/

/-- glam's `I16Vec3`; components are kept as unbounded integers, with the
`i16` range tracked by `IsI16`. -/
structure I16Vec3 where
  x : Int
  y : Int
  z : Int
deriving DecidableEq, Repr

/-- All three components fit in an `i16`. -/
def I16Vec3.IsI16 (v : I16Vec3) : Prop := isI16 v.x ∧ isI16 v.y ∧ isI16 v.z

instance (v : I16Vec3) : Decidable v.IsI16 := by
  unfold I16Vec3.IsI16; infer_instance

/-- Rust `BlockPos(I16Vec3)`: a block-aligned world position (src/positions.rs). -/
structure BlockPos where
  v : I16Vec3
deriving DecidableEq, Repr

/-- Rust `NodePos(U16Vec3)`: a node position relative to its block's origin;
only values with each axis below 16 are ever constructed by the library. -/
structure NodePos where
  x : Nat
  y : Nat
  z : Nat
deriving DecidableEq, Repr

/-- The low 4 intra-block bits of every axis of this `BlockPos` are zero.
For an `i16` value `n`, `n & BLOCK_MASK = n - n.emod 16`, so alignment is
`n.emod 16 = 0`. -/
def BlockPos.Aligned (b : BlockPos) : Prop :=
  b.v.x % 16 = 0 ∧ b.v.y % 16 = 0 ∧ b.v.z % 16 = 0

instance (b : BlockPos) : Decidable b.Aligned := by
  unfold BlockPos.Aligned; infer_instance

/-- A valid block coordinate: representable as an `i16` vector and aligned
to the 16-node block grid (equivalently: each block index in [-2048, 2047]). -/
def BlockPos.Valid (b : BlockPos) : Prop := b.v.IsI16 ∧ b.Aligned

instance (b : BlockPos) : Decidable b.Valid := by
  unfold BlockPos.Valid; infer_instance

/-- Each axis is below the block side length 16 (the invariant documented on
the Rust `NodePos` type: only the lowest `NODE_BITS_1D` bits are set). -/
def NodePos.Valid (p : NodePos) : Prop := p.x < 16 ∧ p.y < 16 ∧ p.z < 16

instance (p : NodePos) : Decidable p.Valid := by
  unfold NodePos.Valid; infer_instance

/-- Rust `SplitPos::split` for `I16Vec3` (src/positions.rs lines 326-331).
The block part is `self & I16Vec3::splat(BLOCK_MASK)` with
`BLOCK_MASK = -16`: for an `i16` value `n` this clears the low 4 bits,
i.e. equals `n - n.emod 16`.  The node part is
`self.as_u16vec3() & U16Vec3::splat(NODE_MASK)`: the `i16 → u16` cast is
reduction mod 2^16 and the mask keeps the low 4 bits, i.e. `n.emod 16`. -/
def I16Vec3.split (v : I16Vec3) : BlockPos × NodePos :=
  (⟨⟨v.x - v.x % 16, v.y - v.y % 16, v.z - v.z % 16⟩⟩,
   ⟨(v.x % 16).toNat, (v.y % 16).toNat, (v.z % 16).toNat⟩)

/-- Rust `SplitPos::join` for `I16Vec3` (src/positions.rs lines 333-335):
`block_pos.0 + node_pos.0.as_i16vec3()`.  The `u16 → i16` cast and the
`i16` addition wrap (the addition never overflows for the aligned inputs
the library produces). -/
def I16Vec3.join (b : BlockPos) (n : NodePos) : I16Vec3 :=
  ⟨toInt16 (b.v.x + toInt16 n.x),
   toInt16 (b.v.y + toInt16 n.y),
   toInt16 (b.v.z + toInt16 n.z)⟩

/-- Rust `BlockPos::into_index_vec`: `self.0 >> NODE_BITS_1D`, an arithmetic
shift, i.e. flooring division by 16 on each axis. -/
def BlockPos.into_index_vec (b : BlockPos) : I16Vec3 :=
  ⟨b.v.x / 16, b.v.y / 16, b.v.z / 16⟩

/-- Rust `BlockPos::from_index_vec`: `vec << NODE_BITS_1D`, a wrapping left
shift by 4 on each `i16` axis. -/
def BlockPos.from_index_vec (v : I16Vec3) : BlockPos :=
  ⟨⟨toInt16 (v.x * 16), toInt16 (v.y * 16), toInt16 (v.z * 16)⟩⟩

/-- Rust `impl TryFrom<I16Vec3> for BlockPos` (src/positions.rs lines 116-129):
succeeds iff every raw component lies in `WORLD_BLOCKS_RANGE` = [-2048, 2048),
and stores the vector unchanged. -/
def BlockPos.tryFromVec (v : I16Vec3) : Option BlockPos :=
  if -2048 ≤ v.x ∧ v.x < 2048 ∧ -2048 ≤ v.y ∧ v.y < 2048
      ∧ -2048 ≤ v.z ∧ v.z < 2048 then
    some ⟨v⟩
  else
    none

/-- Rust `impl TryFrom<i64> for BlockKey`: succeeds iff the value lies in
`BLOCK_KEY_RANGE` = [BLOCK_KEY_MIN, BLOCK_KEY_MAX + 1). -/
def BlockKey.tryFrom (k : Int) : Option Int :=
  if BLOCK_KEY_MIN ≤ k ∧ k < BLOCK_KEY_MAX + 1 then some k else none

/-- Rust `impl From<BlockPos> for BlockKey` (src/positions.rs lines 131-136):
`temp = (value.0 >> 4).as_i64vec3()` (arithmetic shift of each `i16` axis,
then sign extension) and `temp.x + (temp.y << 12) + (temp.z << 24)` in
`i64` arithmetic, which cannot overflow for `i16`-derived inputs. -/
def BlockKey.ofBlockPos (b : BlockPos) : Int :=
  b.v.x / 16 + (b.v.y / 16) * 4096 + (b.v.z / 16) * 16777216

/-- Rust `impl From<BlockKey> for BlockPos` (src/positions.rs lines 82-114):
`i = key.wrapping_sub(BLOCK_KEY_MIN)` on `i64`; right-align with `i64`
arithmetic shifts (`i`, `i >> 12`, `i >> 24`); truncate each lane to `i16`
(`as_i16vec3`); shift left by 4 (wrapping); and `wrapping_add(i16::MIN)`. -/
def BlockPos.ofBlockKey (k : Int) : BlockPos :=
  let i := toInt64 (k - BLOCK_KEY_MIN)
  let tx := toInt16 i
  let ty := toInt16 (i / 4096)
  let tz := toInt16 (i / 16777216)
  ⟨⟨toInt16 (toInt16 (tx * 16) + -32768),
    toInt16 (toInt16 (ty * 16) + -32768),
    toInt16 (toInt16 (tz * 16) + -32768)⟩⟩

/-- Rust `impl From<NodePos> for NodeIndex` (src/positions.rs lines 220-224):
`value.0.x + (value.0.y << 4) + (value.0.z << 8)` on `u16`; never wraps for
the axis-below-16 values the library constructs. -/
def NodeIndex.ofNodePos (p : NodePos) : Nat := p.x + p.y * 16 + p.z * 256

/-- Rust `impl From<NodeIndex> for NodePos` (src/positions.rs lines 208-217):
extracts the three 4-bit fields `i & 15`, `(i >> 4) & 15`, `(i >> 8) & 15`. -/
def NodePos.ofNodeIndex (i : Nat) : NodePos :=
  ⟨i % 16, i / 16 % 16, i / 256 % 16⟩

/-- Rust `impl TryFrom<u16> for NodeIndex`: succeeds iff below `BLOCK_NODES_3D`. -/
def NodeIndex.tryFrom (i : Nat) : Option Nat :=
  if i < 4096 then some i else none

/-- Rust `impl TryFrom<U16Vec3> for NodePos`: succeeds iff every axis is below
`BLOCK_NODES_1D` = 16. -/
def NodePos.tryFromVec (x y z : Nat) : Option NodePos :=
  if x < 16 ∧ y < 16 ∧ z < 16 then some ⟨x, y, z⟩ else none

/-- The key formula as the specification words it: translate each axis's
block index into non-negative space by subtracting the global minimum block
index, then combine the shifted axes as `x + y·stride + z·stride²` with
`stride = DIAGONAL_KEY_STRIDE = 1 + N + N²`, N = 4096. -/
def specDiagonalKey (b : BlockPos) : Int :=
  (b.v.x / 16 - WORLD_BLOCKS_MIN)
    + (b.v.y / 16 - WORLD_BLOCKS_MIN) * DIAGONAL_KEY_STRIDE
    + (b.v.z / 16 - WORLD_BLOCKS_MIN) * DIAGONAL_KEY_STRIDE * DIAGONAL_KEY_STRIDE

/-! The edit cache (src/voxel_manip.rs).  Rust's `&mut self` methods are
embedded as explicit state passing: each operation returns the updated
`MapEdit` next to its result, and an early `?` return leaves the receiver
exactly as it was.  The `HashMap` cache is modelled as an association list
with unique keys whose order stands for the map's unspecified iteration
order. -/

/-- A voxel (`Node`, re-exported by src/lib.rs from map_block.rs): a
content type string `param0` and two parameter bytes. -/
structure Node where
  param0 : String
  param1 : Nat
  param2 : Nat
deriving DecidableEq, Repr

/-- Modelled from the spec: the decoded in-memory `MapBlock` of
map_block.rs, which is not among the available sources.  Per spec §3/§4.2
it holds an insertion-ordered content-type dictionary (ids assigned on
first use, so an id is a position in the list), a flat content-id array
`param0` and two flat parameter-byte arrays, each of length
`BLOCK_NODES_3D`; the opaque trailing sub-payloads play no role in the
edit-cache claims and are omitted. -/
structure MapBlock where
  content_names : List String
  param0 : List Nat
  param1 : List Nat
  param2 : List Nat
deriving DecidableEq, Repr

/-- Modelled from the spec: `MapBlock::unloaded()` (§4.2) — an empty block
with an empty dictionary and all-zero parameter arrays. -/
def MapBlock.unloaded : MapBlock :=
  ⟨[], List.replicate 4096 0, List.replicate 4096 0, List.replicate 4096 0⟩

/-- Index of the first occurrence of `s` in the dictionary, if present. -/
def lookupId (s : String) : List String → Option Nat
  | [] => none
  | t :: ts => if t = s then some 0 else (lookupId s ts).map (· + 1)

/-- Modelled from the spec: `MapBlock::get_or_create_content_id` (§4.2) —
look up the item string in the dictionary, assigning the next unused id
and inserting the string on a miss. -/
def MapBlock.get_or_create_content_id (mb : MapBlock) (s : String) :
    MapBlock × Nat :=
  match lookupId s mb.content_names with
  | some i => (mb, i)
  | none =>
    ({ mb with content_names := mb.content_names ++ [s] },
     mb.content_names.length)

/-- Modelled from the spec: `MapBlock::get_node_at` (§4.2) — resolve the
node index, look up the content string for the stored id and bundle it
with the two parameter bytes. -/
def MapBlock.get_node_at (mb : MapBlock) (p : NodePos) : Node :=
  ⟨mb.content_names.getD (mb.param0.getD (NodeIndex.ofNodePos p) 0) "",
   mb.param1.getD (NodeIndex.ofNodePos p) 0,
   mb.param2.getD (NodeIndex.ofNodePos p) 0⟩

/-- Modelled from the spec: `MapBlock::set_content` (§4.2) — in-place
update of the node's content-id slot. -/
def MapBlock.set_content (mb : MapBlock) (p : NodePos) (id : Nat) :
    MapBlock :=
  { mb with param0 := mb.param0.set (NodeIndex.ofNodePos p) id }

/-- A well-formed block: the three node arrays have the full length
`BLOCK_NODES_3D` = 4096, as the codec guarantees for every block it
decodes (spec §4.2). -/
def MapBlock.WF (mb : MapBlock) : Prop :=
  mb.param0.length = 4096 ∧ mb.param1.length = 4096 ∧ mb.param2.length = 4096

/-- Rust `MapDataError` (src/map_data.rs): the constructor the edit cache
treats specially is `MapBlockNonexistent`; every other backend or codec
failure is collapsed into an opaque numbered error. -/
inductive MapDataError where
  | mapBlockNonexistent (pos : BlockPos)
  | backendError (code : Nat)
deriving DecidableEq, Repr

/-- The backend handle (`MapData`) as the edit cache uses it: a pure load
function standing for `get_mapblock`, a write-failure model, and a log of
the successful writes performed by `set_mapblock` (the stored `MapBlock`
stands for its encoded bytes).  The concrete sqlite/postgres store is an
external collaborator (spec §1/§4.3); only this narrow contract matters
here. -/
structure MapData where
  load : BlockPos → Except MapDataError MapBlock
  writeErr : BlockPos → Option MapDataError
  written : List (BlockPos × MapBlock)

/-- Rust `MapData::get_mapblock`. -/
def MapData.get_mapblock (m : MapData) (pos : BlockPos) :
    Except MapDataError MapBlock := m.load pos

/-- Rust `MapData::set_mapblock`: fails according to the write-failure model,
otherwise records the write. -/
def MapData.set_mapblock (m : MapData) (pos : BlockPos) (mb : MapBlock) :
    Except MapDataError MapData :=
  match m.writeErr pos with
  | some e => .error e
  | none => .ok { m with written := m.written ++ [(pos, mb)] }

/-- Rust `BlockEdit` (src/voxel_manip.rs lines 16-19): one cached mapblock
together with its dirty flag. -/
structure BlockEdit where
  mapblock : MapBlock
  tainted : Bool
deriving DecidableEq, Repr

/-- Rust `BlockEdit::get_node` (lines 22-25). -/
def BlockEdit.get_node (be : BlockEdit) (p : NodePos) : Node :=
  be.mapblock.get_node_at p

/-- Rust `BlockEdit::set_content` (lines 51-55): create or look up the content
id, store it at the node and set the dirty flag. -/
def BlockEdit.set_content (be : BlockEdit) (p : NodePos) (s : String) :
    BlockEdit :=
  let r := be.mapblock.get_or_create_content_id s
  ⟨r.1.set_content p r.2, true⟩

/-- Rust `MapEdit` (lines 85-88, the type behind the public `VoxelManip`
alias): a backend handle plus the mapblock cache. -/
structure MapEdit where
  map : MapData
  mapblock_cache : List (BlockPos × BlockEdit)

/-- Lookup in the cache (`HashMap::entry` / `contains_key`). -/
def cacheFind (c : List (BlockPos × BlockEdit)) (pos : BlockPos) :
    Option BlockEdit :=
  match c with
  | [] => none
  | (p, be) :: rest => if p = pos then some be else cacheFind rest pos

/-- Replace the entry at `pos`, standing for the in-place mutation Rust
performs through the entry's `Arc<Mutex<BlockEdit>>`. -/
def cacheUpdate (c : List (BlockPos × BlockEdit)) (pos : BlockPos)
    (be : BlockEdit) : List (BlockPos × BlockEdit) :=
  match c with
  | [] => []
  | (p, e) :: rest =>
    if p = pos then (p, be) :: rest else (p, e) :: cacheUpdate rest pos be

/-- Rust `MapEdit::get_mapblock` (src/voxel_manip.rs lines 100-144): return the
cached entry if present; on first touch load the block from the backend —
substituting `MapBlock::unloaded()` when the backend reports
`MapBlockNonexistent` — and insert it clean.  On any other load error the
`?` operator returns before the insert, so the cache is untouched. -/
def MapEdit.get_mapblock (m : MapEdit) (pos : BlockPos) :
    MapEdit × Except MapDataError BlockEdit :=
  match cacheFind m.mapblock_cache pos with
  | some be => (m, .ok be)
  | none =>
    match (match m.map.get_mapblock pos with
           | .ok mb => .ok mb
           | .error (.mapBlockNonexistent _) => .ok MapBlock.unloaded
           | .error e => .error e : Except MapDataError MapBlock) with
    | .error e => (m, .error e)
    | .ok mb =>
      ({ m with mapblock_cache := m.mapblock_cache ++ [(pos, ⟨mb, false⟩)] },
       .ok (⟨mb, false⟩ : BlockEdit))

/-- Rust `MapEdit::get_node` (lines 156-164): `let (blockpos, nodepos) =
node_pos.split()`, ensure the block is loaded, read the node; read-only,
the dirty flag is not touched. -/
def MapEdit.get_node (m : MapEdit) (v : I16Vec3) :
    MapEdit × Except MapDataError Node :=
  match m.get_mapblock (v.split).1 with
  | (m1, .error e) => (m1, .error e)
  | (m1, .ok be) => (m1, .ok (be.get_node (v.split).2))

/-- Rust `MapEdit::set_content` (lines 203-209): ensure the block is loaded,
then mutate the cached entry through `BlockEdit::set_content`, which sets
the dirty flag. -/
def MapEdit.set_content (m : MapEdit) (v : I16Vec3) (s : String) :
    MapEdit × Except MapDataError Unit :=
  match m.get_mapblock (v.split).1 with
  | (m1, .error e) => (m1, .error e)
  | (m1, .ok be) =>
    ({ m1 with
        mapblock_cache :=
          cacheUpdate m1.mapblock_cache (v.split).1
            (be.set_content (v.split).2 s) },
     .ok ())

/-- Rust `MapEdit::is_in_cache` (lines 236-239). -/
def MapEdit.is_in_cache (m : MapEdit) (v : I16Vec3) : Bool :=
  (cacheFind m.mapblock_cache (v.split).1).isSome

/-- One pass of `MapEdit::commit` (lines 253-264) over the remaining cache
entries: flush each dirty entry through `set_mapblock` and clear its flag;
skip clean entries; on a write failure stop at once — as the Rust `?`
does — leaving the failing entry and all later ones untouched. -/
def commitGo (map : MapData) :
    List (BlockPos × BlockEdit) →
      MapData × List (BlockPos × BlockEdit) × Option MapDataError
  | [] => (map, [], none)
  | (pos, be) :: rest =>
    if be.tainted then
      match map.set_mapblock pos be.mapblock with
      | .error e => (map, (pos, be) :: rest, some e)
      | .ok map1 =>
        let r := commitGo map1 rest
        (r.1, (pos, ⟨be.mapblock, false⟩) :: r.2.1, r.2.2)
    else
      let r := commitGo map rest
      (r.1, (pos, be) :: r.2.1, r.2.2)

/-- Rust `MapEdit::commit`: flush every dirty cache entry to the backend in
cache-iteration order, clearing flags, stopping at the first failure. -/
def MapEdit.commit (m : MapEdit) : MapEdit × Option MapDataError :=
  let r := commitGo m.map m.mapblock_cache
  (⟨r.1, r.2.1⟩, r.2.2)

/-- A well-formed edit session: every cached block and every block the
backend can deliver has full-length node arrays (spec §4.2 guarantees this
for everything the codec produces). -/
def MapEdit.WF (m : MapEdit) : Prop :=
  (∀ e ∈ m.mapblock_cache, e.2.mapblock.WF)
  ∧ (∀ pos mb, m.map.load pos = .ok mb → mb.WF)

/-! Theorems about the addressing layer. -/

/-- C1: the block-coordinate/block-key encoding is a bijection over the
valid range in both directions: every valid `BlockPos` (i16-representable
and block-aligned, i.e. each block index in [-2048, 2047]) survives a
round trip through its `BlockKey`, and every key in
[BLOCK_KEY_MIN, BLOCK_KEY_MAX] survives a round trip through `BlockPos`. -/
theorem c1_block_key_bijection :
    (∀ b : BlockPos, b.Valid →
      BlockPos.ofBlockKey (BlockKey.ofBlockPos b) = b)
    ∧ (∀ k : Int, BLOCK_KEY_MIN ≤ k → k ≤ BLOCK_KEY_MAX →
      BlockKey.ofBlockPos (BlockPos.ofBlockKey k) = k) := by
  constructor
  · rintro ⟨⟨x, y, z⟩⟩ h
    unfold BlockPos.Valid I16Vec3.IsI16 BlockPos.Aligned isI16 at h
    simp only at h
    obtain ⟨⟨⟨hx1, hx2⟩, ⟨hy1, hy2⟩, hz1, hz2⟩, ax, ay, az⟩ := h
    simp only [BlockPos.ofBlockKey, BlockKey.ofBlockPos, BLOCK_KEY_MIN,
      WORLD_BLOCKS_MIN, DIAGONAL_KEY_STRIDE, toInt16, toInt64,
      BlockPos.mk.injEq, I16Vec3.mk.injEq]
    refine ⟨?_, ?_, ?_⟩ <;> omega
  · intro k h1 h2
    simp only [BLOCK_KEY_MIN, BLOCK_KEY_MAX, WORLD_BLOCKS_MIN,
      WORLD_BLOCKS_MAX, DIAGONAL_KEY_STRIDE] at h1 h2
    simp only [BlockPos.ofBlockKey, BlockKey.ofBlockPos, BLOCK_KEY_MIN,
      WORLD_BLOCKS_MIN, DIAGONAL_KEY_STRIDE, toInt16, toInt64]
    omega

/-- C1 witness: the round trips hold at block index (8, 13, 8) and at the
key 134270984 from the repository's `simple_math` test. -/
theorem c1_block_key_bijection_witness :
    BlockPos.ofBlockKey
        (BlockKey.ofBlockPos (BlockPos.from_index_vec ⟨8, 13, 8⟩))
      = BlockPos.from_index_vec ⟨8, 13, 8⟩
    ∧ BlockKey.ofBlockPos (BlockPos.ofBlockKey 134270984) = 134270984 :=
  ⟨c1_block_key_bijection.1 _ (by decide),
   c1_block_key_bijection.2 134270984 (by decide) (by decide)⟩

/-- C2: for every i16 world coordinate vector, splitting into block part
(low 4 bits cleared per axis) and intra-block part (low 4 bits, unsigned)
and joining again reproduces the vector. -/
theorem c2_split_join_roundtrip (v : I16Vec3) (h : v.IsI16) :
    I16Vec3.join (v.split).1 (v.split).2 = v := by
  obtain ⟨x, y, z⟩ := v
  unfold I16Vec3.IsI16 isI16 at h
  simp only at h
  obtain ⟨⟨hx1, hx2⟩, ⟨hy1, hy2⟩, hz1, hz2⟩ := h
  simp only [I16Vec3.split, I16Vec3.join, toInt16, I16Vec3.mk.injEq]
  refine ⟨?_, ?_, ?_⟩ <;>
  · rw [Int.toNat_of_nonneg (by omega)]
    omega

/-- C2 witness: the round trip holds at the coordinate (8, 9, 10). -/
theorem c2_split_join_roundtrip_witness :
    I16Vec3.join ((⟨8, 9, 10⟩ : I16Vec3).split).1
      ((⟨8, 9, 10⟩ : I16Vec3).split).2 = ⟨8, 9, 10⟩ :=
  c2_split_join_roundtrip ⟨8, 9, 10⟩ (by decide)

/-- C3 counterexample: at block index (8, 13, 8) the key produced by the
code (134270984) differs from the claimed shift-then-combine formula with
stride = 1 + N + N². -/
theorem c3_diagonal_formula_counterexample :
    BlockKey.ofBlockPos (BlockPos.from_index_vec ⟨8, 13, 8⟩)
      ≠ specDiagonalKey (BlockPos.from_index_vec ⟨8, 13, 8⟩) := by
  decide

/-- C3 amended: the key combines the block indices in radix N = 4096
(`x + y·N + z·N²` on the signed indices); equivalently, after translating
each axis into non-negative space the radix-N combination equals the key
offset by BLOCK_KEY_MIN = min·stride, stride = 1 + N + N². -/
theorem c3_key_formula_amended (b : BlockPos) :
    BlockKey.ofBlockPos b =
      BLOCK_KEY_MIN + ((b.v.x / 16 - WORLD_BLOCKS_MIN)
        + (b.v.y / 16 - WORLD_BLOCKS_MIN) * 4096
        + (b.v.z / 16 - WORLD_BLOCKS_MIN) * 4096 * 4096) := by
  obtain ⟨⟨x, y, z⟩⟩ := b
  simp only [BlockKey.ofBlockPos, BLOCK_KEY_MIN, WORLD_BLOCKS_MIN,
    DIAGONAL_KEY_STRIDE]
  ring

/-- C8 counterexample: the checked TryFrom accepts the unaligned raw vector
(1, 0, 0) and produces a `BlockPos` whose low 4 intra-block bits are not
all zero. -/
theorem c8_alignment_counterexample :
    BlockPos.tryFromVec ⟨1, 0, 0⟩ = some ⟨⟨1, 0, 0⟩⟩
      ∧ ¬ (BlockPos.mk ⟨1, 0, 0⟩).Aligned := by
  decide

/-- C8 amended: `BlockPos` values built by splitting a world coordinate, by
`from_index_vec`, or by decoding a `BlockKey` always have the low 4
intra-block bits of every axis zero; the checked TryFrom, however, only
range-checks each raw component against [-2048, 2048) and stores the vector
unchanged, without enforcing alignment. -/
theorem c8_alignment_amended :
    (∀ v : I16Vec3, (v.split).1.Aligned)
    ∧ (∀ v : I16Vec3, (BlockPos.from_index_vec v).Aligned)
    ∧ (∀ k : Int, (BlockPos.ofBlockKey k).Aligned)
    ∧ (∀ v b, BlockPos.tryFromVec v = some b → b.v = v) := by
  refine ⟨?_, ?_, ?_, ?_⟩
  · rintro ⟨x, y, z⟩
    simp only [I16Vec3.split, BlockPos.Aligned]
    omega
  · rintro ⟨x, y, z⟩
    simp only [BlockPos.from_index_vec, BlockPos.Aligned, toInt16]
    omega
  · intro k
    simp only [BlockPos.ofBlockKey, BlockPos.Aligned, toInt16, toInt64]
    omega
  · intro v b h
    unfold BlockPos.tryFromVec at h
    split at h
    · exact (Option.some.injEq _ _ ▸ h) ▸ rfl
    · exact Option.noConfusion h

/-- C8 witness: splitting (17, -1, 32) yields an aligned block part, and the
TryFrom clause applies at the concrete vector (1, 0, 0). -/
theorem c8_alignment_amended_witness :
    ((⟨17, -1, 32⟩ : I16Vec3).split).1.Aligned
    ∧ (BlockPos.mk ⟨1, 0, 0⟩).v = ⟨1, 0, 0⟩ :=
  ⟨c8_alignment_amended.1 ⟨17, -1, 32⟩,
   c8_alignment_amended.2.2.2 ⟨1, 0, 0⟩ ⟨⟨1, 0, 0⟩⟩ (by decide)⟩

/-- C9: the intra-block coordinate / node index conversion is a bijection
with axis-major packing (x low 4 bits, y middle 4, z high 4): every valid
`NodePos` survives the round trip, (0,0,0) maps to 0 and (15,15,15) to
4095. -/
theorem c9_node_index_bijection :
    (∀ p : NodePos, p.Valid →
      NodePos.ofNodeIndex (NodeIndex.ofNodePos p) = p)
    ∧ NodeIndex.ofNodePos ⟨0, 0, 0⟩ = 0
    ∧ NodePos.ofNodeIndex 0 = ⟨0, 0, 0⟩
    ∧ NodeIndex.ofNodePos ⟨15, 15, 15⟩ = 4095
    ∧ NodePos.ofNodeIndex 4095 = ⟨15, 15, 15⟩ := by
  refine ⟨?_, by decide, by decide, by decide, by decide⟩
  rintro ⟨px, py, pz⟩ h
  unfold NodePos.Valid at h
  simp only at h
  simp only [NodeIndex.ofNodePos, NodePos.ofNodeIndex, NodePos.mk.injEq]
  omega

/-- C9 witness: the round trip holds at the intra-block position (3, 5, 7). -/
theorem c9_node_index_bijection_witness :
    NodePos.ofNodeIndex (NodeIndex.ofNodePos ⟨3, 5, 7⟩) = ⟨3, 5, 7⟩ :=
  c9_node_index_bijection.1 ⟨3, 5, 7⟩ (by decide)

/-! Helper lemmas for the edit-cache theorems. -/

theorem lookupId_getD {s : String} {l : List String} {i : Nat}
    (h : lookupId s l = some i) : l.getD i "" = s := by
  induction l generalizing i with
  | nil => exact Option.noConfusion h
  | cons t ts ih =>
    unfold lookupId at h
    by_cases ht : t = s
    · simp only [ht, if_pos] at h
      cases h
      simpa using ht
    · simp only [if_neg ht] at h
      cases hl : lookupId s ts with
      | none => rw [hl] at h; exact Option.noConfusion h
      | some j =>
        rw [hl] at h
        simp only [Option.map_some'] at h
        cases h
        simpa using ih hl

theorem getD_concat_length (l : List String) (s : String) :
    (l ++ [s]).getD l.length "" = s := by
  induction l with
  | nil => rfl
  | cons a t ih => simpa using ih

theorem getD_set_self (l : List Nat) (i a : Nat) (h : i < l.length) :
    (l.set i a).getD i 0 = a := by
  induction l generalizing i with
  | nil => simp at h
  | cons b t ih =>
    cases i with
    | zero => rfl
    | succ j => simpa using ih j (by simpa using h)

theorem get_or_create_content_id_name (mb : MapBlock) (s : String) :
    ((mb.get_or_create_content_id s).1).content_names.getD
      ((mb.get_or_create_content_id s).2) "" = s := by
  unfold MapBlock.get_or_create_content_id
  cases h : lookupId s mb.content_names with
  | some i => simpa using lookupId_getD h
  | none => simpa using getD_concat_length mb.content_names s

theorem get_or_create_content_id_param0 (mb : MapBlock) (s : String) :
    ((mb.get_or_create_content_id s).1).param0 = mb.param0 := by
  unfold MapBlock.get_or_create_content_id
  cases h : lookupId s mb.content_names <;> rfl

theorem split_nodeIndex_lt (v : I16Vec3) :
    NodeIndex.ofNodePos (v.split).2 < 4096 := by
  simp only [I16Vec3.split, NodeIndex.ofNodePos]
  omega

theorem blockEdit_set_content_get (be : BlockEdit) (p : NodePos) (s : String)
    (hl : be.mapblock.param0.length = 4096)
    (hi : NodeIndex.ofNodePos p < 4096) :
    ((be.set_content p s).get_node p).param0 = s := by
  unfold BlockEdit.set_content BlockEdit.get_node MapBlock.get_node_at
    MapBlock.set_content
  simp only
  rw [getD_set_self _ _ _ (by rw [get_or_create_content_id_param0]; omega)]
  exact get_or_create_content_id_name be.mapblock s

theorem cacheFind_mem {c : List (BlockPos × BlockEdit)} {pos : BlockPos}
    {be : BlockEdit} (h : cacheFind c pos = some be) : (pos, be) ∈ c := by
  induction c with
  | nil => exact Option.noConfusion h
  | cons e rest ih =>
    obtain ⟨p, b⟩ := e
    simp only [cacheFind] at h
    by_cases hp : p = pos
    · rw [if_pos hp] at h
      cases h
      subst hp
      exact List.mem_cons_self _ _
    · rw [if_neg hp] at h
      exact List.mem_cons_of_mem _ (ih h)

theorem cacheFind_update_self {c : List (BlockPos × BlockEdit)}
    {pos : BlockPos} {be : BlockEdit} (be' : BlockEdit)
    (h : cacheFind c pos = some be) :
    cacheFind (cacheUpdate c pos be') pos = some be' := by
  induction c with
  | nil => exact Option.noConfusion h
  | cons e rest ih =>
    obtain ⟨p, b⟩ := e
    simp only [cacheFind, cacheUpdate] at h ⊢
    by_cases hp : p = pos
    · simp [hp, cacheFind]
    · simp only [if_neg hp, cacheFind] at h ⊢
      exact ih h

theorem cacheFind_append_self (c : List (BlockPos × BlockEdit))
    (pos : BlockPos) (be : BlockEdit) (h : cacheFind c pos = none) :
    cacheFind (c ++ [(pos, be)]) pos = some be := by
  induction c with
  | nil => simp [cacheFind]
  | cons e rest ih =>
    obtain ⟨p, b⟩ := e
    simp only [cacheFind, List.cons_append] at h ⊢
    by_cases hp : p = pos
    · rw [if_pos hp] at h
      exact Option.noConfusion h
    · rw [if_neg hp] at h ⊢
      exact ih h

theorem get_mapblock_ok_find {m : MapEdit} {pos : BlockPos} {m1 : MapEdit}
    {be : BlockEdit} (h : m.get_mapblock pos = (m1, .ok be)) :
    cacheFind m1.mapblock_cache pos = some be := by
  unfold MapEdit.get_mapblock at h
  cases hf : cacheFind m.mapblock_cache pos with
  | some b0 =>
    rw [hf] at h
    simp only [Prod.mk.injEq, Except.ok.injEq] at h
    obtain ⟨h1, h2⟩ := h
    subst h1; subst h2
    exact hf
  | none =>
    rw [hf] at h
    cases hl : m.map.get_mapblock pos with
    | ok mb =>
      rw [hl] at h
      simp only [Prod.mk.injEq, Except.ok.injEq] at h
      obtain ⟨h1, h2⟩ := h
      subst h1; subst h2
      exact cacheFind_append_self _ _ _ hf
    | error e =>
      rw [hl] at h
      cases e with
      | mapBlockNonexistent p =>
        simp only [Prod.mk.injEq, Except.ok.injEq] at h
        obtain ⟨h1, h2⟩ := h
        subst h1; subst h2
        exact cacheFind_append_self _ _ _ hf
      | backendError code => simp at h

theorem get_mapblock_ok_wf {m : MapEdit} {pos : BlockPos} {m1 : MapEdit}
    {be : BlockEdit} (hwf : m.WF) (h : m.get_mapblock pos = (m1, .ok be)) :
    be.mapblock.WF := by
  unfold MapEdit.get_mapblock at h
  cases hf : cacheFind m.mapblock_cache pos with
  | some b0 =>
    rw [hf] at h
    simp only [Prod.mk.injEq, Except.ok.injEq] at h
    obtain ⟨h1, h2⟩ := h
    subst h2
    exact hwf.1 _ (cacheFind_mem hf)
  | none =>
    rw [hf] at h
    cases hl : m.map.get_mapblock pos with
    | ok mb =>
      rw [hl] at h
      simp only [Prod.mk.injEq, Except.ok.injEq] at h
      obtain ⟨h1, h2⟩ := h
      subst h2
      exact hwf.2 pos mb hl
    | error e =>
      rw [hl] at h
      cases e with
      | mapBlockNonexistent p =>
        simp only [Prod.mk.injEq, Except.ok.injEq] at h
        obtain ⟨h1, h2⟩ := h
        subst h2
        unfold MapBlock.WF MapBlock.unloaded
        simp only [List.length_replicate, and_self]
      | backendError code => simp at h

theorem set_mapblock_ok {map : MapData} {pos : BlockPos} {mb : MapBlock}
    {map1 : MapData} (h : map.set_mapblock pos mb = .ok map1) :
    map1.written = map.written ++ [(pos, mb)]
    ∧ map1.writeErr = map.writeErr ∧ map1.load = map.load := by
  unfold MapData.set_mapblock at h
  cases hw : map.writeErr pos with
  | some e => rw [hw] at h; exact Except.noConfusion h
  | none =>
    rw [hw] at h
    simp only [Except.ok.injEq] at h
    subst h
    exact ⟨rfl, rfl, rfl⟩

theorem set_mapblock_error {map : MapData} {pos : BlockPos} {mb : MapBlock}
    {e : MapDataError} (h : map.set_mapblock pos mb = .error e) :
    map.writeErr pos = some e := by
  unfold MapData.set_mapblock at h
  cases hw : map.writeErr pos with
  | some e0 =>
    rw [hw] at h
    injection h with h1
    subst h1
    exact rfl
  | none => rw [hw] at h; exact Except.noConfusion h

theorem commitGo_success (c : List (BlockPos × BlockEdit)) (map : MapData)
    (h : (commitGo map c).2.2 = none) :
    (commitGo map c).1.written
      = map.written
        ++ (c.filter (fun x => x.2.tainted)).map (fun x => (x.1, x.2.mapblock))
    ∧ (commitGo map c).2.1
      = c.map (fun x => (x.1, ⟨x.2.mapblock, false⟩)) := by
  induction c generalizing map with
  | nil => simp [commitGo]
  | cons hd rest ih =>
    obtain ⟨pos0, mb0, t0⟩ := hd
    cases t0 with
    | false =>
      have h' : (commitGo map rest).2.2 = none := by
        simpa [commitGo] using h
      obtain ⟨ih1, ih2⟩ := ih map h'
      exact ⟨by simp [commitGo, ih1], by simp [commitGo, ih2]⟩
    | true =>
      cases hs : map.set_mapblock pos0 mb0 with
      | error er =>
        exfalso
        simp [commitGo, hs] at h
      | ok map1 =>
        obtain ⟨hw1, hw2, hw3⟩ := set_mapblock_ok hs
        have h' : (commitGo map1 rest).2.2 = none := by
          simpa [commitGo, hs] using h
        obtain ⟨ih1, ih2⟩ := ih map1 h'
        exact ⟨by simp [commitGo, hs, ih1, hw1], by simp [commitGo, hs, ih2]⟩

theorem commitGo_failure (c : List (BlockPos × BlockEdit)) (map : MapData)
    (e : MapDataError) (h : (commitGo map c).2.2 = some e) :
    ∃ pre pos be post,
      c = pre ++ (pos, be) :: post
      ∧ be.tainted = true
      ∧ map.writeErr pos = some e
      ∧ (commitGo map c).2.1
        = pre.map (fun x => (x.1, ⟨x.2.mapblock, false⟩)) ++ (pos, be) :: post
      ∧ (commitGo map c).1.written
        = map.written
          ++ (pre.filter (fun x => x.2.tainted)).map
              (fun x => (x.1, x.2.mapblock)) := by
  induction c generalizing map with
  | nil => simp [commitGo] at h
  | cons hd rest ih =>
    obtain ⟨pos0, mb0, t0⟩ := hd
    cases t0 with
    | false =>
      have h' : (commitGo map rest).2.2 = some e := by
        simpa [commitGo] using h
      obtain ⟨pre, pos, be, post, hc, ht, hwe, hcache, hwr⟩ := ih map h'
      refine ⟨(pos0, ⟨mb0, false⟩) :: pre, pos, be, post, ?_, ht, hwe, ?_, ?_⟩
      · simp [hc]
      · simp [commitGo, hcache]
      · simp [commitGo, hwr]
    | true =>
      cases hs : map.set_mapblock pos0 mb0 with
      | error er =>
        have her : er = e := by simpa [commitGo, hs] using h
        subst her
        refine ⟨[], pos0, ⟨mb0, true⟩, rest, rfl, rfl,
          set_mapblock_error hs, ?_, ?_⟩
        · simp [commitGo, hs]
        · simp [commitGo, hs]
      | ok map1 =>
        obtain ⟨hw1, hw2, hw3⟩ := set_mapblock_ok hs
        have h' : (commitGo map1 rest).2.2 = some e := by
          simpa [commitGo, hs] using h
        obtain ⟨pre, pos, be, post, hc, ht, hwe, hcache, hwr⟩ := ih map1 h'
        refine ⟨(pos0, ⟨mb0, true⟩) :: pre, pos, be, post, ?_, ht, ?_, ?_, ?_⟩
        · simp [hc]
        · rw [← hw2]; exact hwe
        · simp [commitGo, hs, hcache]
        · simp [commitGo, hs, hwr, hw1]

/-! Concrete objects used by the witnesses below. -/

/-- A backend with no stored blocks: every load reports not-found; writes
always succeed. -/
def mdNotFound : MapData :=
  ⟨fun p => .error (.mapBlockNonexistent p), fun _ => none, []⟩

/-- A backend whose loads fail with a non-not-found error. -/
def mdLoadFail : MapData :=
  ⟨fun _ => .error (.backendError 3), fun _ => none, []⟩

/-- A backend whose writes always fail. -/
def mdWriteFail : MapData :=
  ⟨fun p => .error (.mapBlockNonexistent p), fun _ => some (.backendError 7), []⟩

/-- A sample cached block. -/
def mbTiny : MapBlock := ⟨["air"], [0], [0], [0]⟩

/-- A fresh edit session over the empty backend. -/
def meFresh : MapEdit := ⟨mdNotFound, []⟩

/-- A fresh edit session over the failing-load backend. -/
def meLoadFail : MapEdit := ⟨mdLoadFail, []⟩

/-- A session with one dirty and one clean cached block. -/
def meTwoEntries : MapEdit :=
  ⟨mdNotFound,
   [(⟨⟨0, 0, 0⟩⟩, ⟨mbTiny, true⟩), (⟨⟨16, 0, 0⟩⟩, ⟨mbTiny, false⟩)]⟩

/-- A session with one dirty block over the failing-write backend. -/
def meWriteFail : MapEdit := ⟨mdWriteFail, [(⟨⟨0, 0, 0⟩⟩, ⟨mbTiny, true⟩)]⟩

/-- A sample world coordinate. -/
def vProbe : I16Vec3 := ⟨8, 9, 10⟩

/-! The edit-cache claim theorems. -/

/-- C4: within one edit session and before any commit, a write is visible
to a subsequent read — if `set_content(pos, s)` succeeds then `get_node
(pos)` on the resulting state returns a node whose content string is `s`
(for a well-formed session: all blocks have full-length node arrays). -/
theorem c4_set_content_then_get_node (m : MapEdit) (v : I16Vec3) (s : String)
    (hwf : m.WF) (hok : (m.set_content v s).2 = .ok ()) :
    ∃ n : Node, ((m.set_content v s).1.get_node v).2 = .ok n
      ∧ n.param0 = s := by
  cases hg : m.get_mapblock (v.split).1 with
  | mk m1 r =>
    cases r with
    | error er =>
      exfalso
      unfold MapEdit.set_content at hok
      rw [hg] at hok
      simp at hok
    | ok be =>
      have hfind := get_mapblock_ok_find hg
      have hwfb : be.mapblock.WF := get_mapblock_ok_wf hwf hg
      have hset : m.set_content v s
          = ({ m1 with
                mapblock_cache :=
                  cacheUpdate m1.mapblock_cache (v.split).1
                    (be.set_content (v.split).2 s) }, .ok ()) := by
        unfold MapEdit.set_content
        rw [hg]
      have hfind' := cacheFind_update_self (c := m1.mapblock_cache)
        (be.set_content (v.split).2 s) hfind
      refine ⟨(be.set_content (v.split).2 s).get_node (v.split).2, ?_, ?_⟩
      · rw [hset]
        simp [MapEdit.get_node, MapEdit.get_mapblock, hfind']
      · exact blockEdit_set_content_get _ _ _ hwfb.1 (split_nodeIndex_lt v)

/-- C4 witness: on a fresh session over an empty backend, setting the
content at (8, 9, 10) to "a:b" and reading it back yields "a:b". -/
theorem c4_set_content_then_get_node_witness :
    ∃ n : Node,
      ((meFresh.set_content vProbe "a:b").1.get_node vProbe).2 = .ok n
      ∧ n.param0 = "a:b" :=
  c4_set_content_then_get_node meFresh vProbe "a:b"
    ⟨by intro e he; simp [meFresh, mdNotFound] at he,
     by intro pos mb h; exact Except.noConfusion h⟩
    rfl

/-- C5: a successful `commit()` writes to the backend exactly the cached
entries that were dirty when it started — each stored under its block
position, in cache-iteration order — clears their dirty flags, performs no
write for clean entries, and keeps every entry in the cache. -/
theorem c5_commit_flushes_dirty (m : MapEdit) (h : (m.commit).2 = none) :
    (m.commit).1.map.written
      = m.map.written
        ++ (m.mapblock_cache.filter (fun x => x.2.tainted)).map
            (fun x => (x.1, x.2.mapblock))
    ∧ (m.commit).1.mapblock_cache
      = m.mapblock_cache.map (fun x => (x.1, ⟨x.2.mapblock, false⟩)) := by
  have h' : (commitGo m.map m.mapblock_cache).2.2 = none := by
    simpa [MapEdit.commit] using h
  obtain ⟨h1, h2⟩ := commitGo_success m.mapblock_cache m.map h'
  exact ⟨by simpa [MapEdit.commit] using h1,
         by simpa [MapEdit.commit] using h2⟩

/-- C5 witness: committing a session with one dirty and one clean entry
writes exactly the dirty one and clears its flag. -/
theorem c5_commit_flushes_dirty_witness :
    (meTwoEntries.commit).1.map.written
      = meTwoEntries.map.written
        ++ (meTwoEntries.mapblock_cache.filter (fun x => x.2.tainted)).map
            (fun x => (x.1, x.2.mapblock))
    ∧ (meTwoEntries.commit).1.mapblock_cache
      = meTwoEntries.mapblock_cache.map
          (fun x => (x.1, ⟨x.2.mapblock, false⟩)) :=
  c5_commit_flushes_dirty meTwoEntries rfl

/-- C6: reading a coordinate whose block is not yet cached does not fail
when the backend reports the block as nonexistent — the node is read from
a synthesized `unloaded()` block — while any other backend load error is
propagated to the caller. -/
theorem c6_absent_block_synthesized (m : MapEdit) (v : I16Vec3)
    (hnc : cacheFind m.mapblock_cache (v.split).1 = none) :
    (∀ p, m.map.load (v.split).1 = .error (.mapBlockNonexistent p) →
      (m.get_node v).2 = .ok (MapBlock.unloaded.get_node_at (v.split).2))
    ∧ (∀ e, m.map.load (v.split).1 = .error e →
        (∀ p, e ≠ .mapBlockNonexistent p) →
        (m.get_node v).2 = .error e) := by
  constructor
  · intro p hp
    unfold MapEdit.get_node MapEdit.get_mapblock MapData.get_mapblock
    rw [hnc, hp]
    rfl
  · intro e he hne
    unfold MapEdit.get_node MapEdit.get_mapblock MapData.get_mapblock
    rw [hnc, he]
    cases e with
    | mapBlockNonexistent p => exact absurd rfl (hne p)
    | backendError code => rfl

/-- C6 witness: on the empty backend, reading (8, 9, 10) yields the node
of the unloaded block; on the failing backend the error is passed on. -/
theorem c6_absent_block_synthesized_witness :
    (meFresh.get_node vProbe).2
      = .ok (MapBlock.unloaded.get_node_at (vProbe.split).2)
    ∧ (meLoadFail.get_node vProbe).2 = .error (.backendError 3) :=
  ⟨(c6_absent_block_synthesized meFresh vProbe rfl).1 (vProbe.split).1 rfl,
   (c6_absent_block_synthesized meLoadFail vProbe rfl).2 (.backendError 3)
     rfl (fun p h => MapDataError.noConfusion h)⟩

/-- C7: when a backend write fails during `commit()`, the error is
returned to the caller; the entries the iteration had already processed
are flushed (dirty ones written, flags cleared); and the failing entry
together with every not-yet-processed entry keeps its dirty flag and its
in-memory edits unchanged. -/
theorem c7_commit_failure_partial (m : MapEdit) (e : MapDataError)
    (h : (m.commit).2 = some e) :
    ∃ pre pos be post,
      m.mapblock_cache = pre ++ (pos, be) :: post
      ∧ be.tainted = true
      ∧ m.map.writeErr pos = some e
      ∧ (m.commit).1.mapblock_cache
        = pre.map (fun x => (x.1, ⟨x.2.mapblock, false⟩))
          ++ (pos, be) :: post
      ∧ (m.commit).1.map.written
        = m.map.written
          ++ (pre.filter (fun x => x.2.tainted)).map
              (fun x => (x.1, x.2.mapblock)) := by
  have h' : (commitGo m.map m.mapblock_cache).2.2 = some e := by
    simpa [MapEdit.commit] using h
  obtain ⟨pre, pos, be, post, hc, ht, hwe, hcache, hwr⟩ :=
    commitGo_failure m.mapblock_cache m.map e h'
  exact ⟨pre, pos, be, post, hc, ht, hwe,
    by simpa [MapEdit.commit] using hcache,
    by simpa [MapEdit.commit] using hwr⟩

/-- C7 witness: committing one dirty entry over the failing-write backend
reports the write error and leaves the entry dirty and unchanged. -/
theorem c7_commit_failure_partial_witness :
    ∃ pre pos be post,
      meWriteFail.mapblock_cache = pre ++ (pos, be) :: post
      ∧ be.tainted = true
      ∧ meWriteFail.map.writeErr pos = some (.backendError 7)
      ∧ (meWriteFail.commit).1.mapblock_cache
        = pre.map (fun x => (x.1, ⟨x.2.mapblock, false⟩))
          ++ (pos, be) :: post
      ∧ (meWriteFail.commit).1.map.written
        = meWriteFail.map.written
          ++ (pre.filter (fun x => x.2.tainted)).map
              (fun x => (x.1, x.2.mapblock)) :=
  c7_commit_failure_partial meWriteFail (.backendError 7) rfl

/-- C10: a failed load is atomic with respect to the cache: if the backend
load of an uncached block fails with an error other than not-found,
`get_node` returns that error, the session state is unchanged — the
coordinate is still not cached, so nothing was inserted or marked dirty —
and a repeated read consults the backend again (failing again here, as the
load function is unchanged). -/
theorem c10_failed_load_atomic (m : MapEdit) (v : I16Vec3)
    (e : MapDataError)
    (hnc : cacheFind m.mapblock_cache (v.split).1 = none)
    (he : m.map.load (v.split).1 = .error e)
    (hne : ∀ p, e ≠ .mapBlockNonexistent p) :
    (m.get_node v).2 = .error e
    ∧ (m.get_node v).1 = m
    ∧ (m.get_node v).1.is_in_cache v = false
    ∧ ((m.get_node v).1.get_node v).2 = .error e := by
  have hstep : m.get_node v = (m, .error e) := by
    unfold MapEdit.get_node MapEdit.get_mapblock MapData.get_mapblock
    rw [hnc, he]
    cases e with
    | mapBlockNonexistent p => exact absurd rfl (hne p)
    | backendError code => rfl
  have hself : (m.get_node v).1 = m := by rw [hstep]
  refine ⟨by rw [hstep], hself, ?_, ?_⟩
  · rw [hself]
    simp [MapEdit.is_in_cache, hnc]
  · rw [hself, hstep]

/-- C10 witness: reading (8, 9, 10) twice on a fresh session over the
failing-load backend errors both times and leaves the cache empty. -/
theorem c10_failed_load_atomic_witness :
    (meLoadFail.get_node vProbe).2 = .error (.backendError 3)
    ∧ (meLoadFail.get_node vProbe).1 = meLoadFail
    ∧ (meLoadFail.get_node vProbe).1.is_in_cache vProbe = false
    ∧ ((meLoadFail.get_node vProbe).1.get_node vProbe).2
        = .error (.backendError 3) :=
  c10_failed_load_atomic meLoadFail vProbe (.backendError 3) rfl rfl
    (fun p h => MapDataError.noConfusion h)
